import Mathlib

/-!
Shallow embedding of `src/vocab.py` (figaro): the token-space builders
(`Tokens.get_instrument_tokens`, `get_chord_tokens`, `get_time_signature_tokens`,
`get_midi_tokens`) and the bidirectional token-index map (`Vocab`), together with
the newline-based persistence used by `RemiVocab` / `DescriptionVocab`.

Python strings are Lean `String`s; the Python dict `forward_map` is embedded as a
function `String → Option Nat` built by successive pointwise updates (dict
insertion overwrites); the Python list `backward_map` is a Lean `List String`;
`IndexError` on list indexing is embedded as `Option` (`none` = raises).
-/

namespace Figaro

/-- Modelled from the spec: `PAD_TOKEN` lives in `constants.py`, which is not under
`src/`. The spec only requires five distinct reserved tokens PAD, UNK, BOS, EOS,
MASK; concrete literals chosen arbitrarily but pairwise distinct. -/
def PAD_TOKEN : String := "<pad>"

/-- Modelled from the spec: `UNK_TOKEN` from `constants.py` (not under `src/`). -/
def UNK_TOKEN : String := "<unk>"

/-- Modelled from the spec: `BOS_TOKEN` from `constants.py` (not under `src/`). -/
def BOS_TOKEN : String := "<bos>"

/-- Modelled from the spec: `EOS_TOKEN` from `constants.py` (not under `src/`). -/
def EOS_TOKEN : String := "<eos>"

/-- Modelled from the spec: `MASK_TOKEN` from `constants.py` (not under `src/`). -/
def MASK_TOKEN : String := "<mask>"

/-- Modelled from the spec: `TIME_SIGNATURE_KEY` from `constants.py` (not under
`src/`); the spec's examples write time-signature tokens as `"TimeSig_1/2"`. -/
def TIME_SIGNATURE_KEY : String := "TimeSig"

/-- Modelled from the spec: `CHORD_KEY` from `constants.py` (not under `src/`);
the spec's examples write chord tokens as `"Chord_C:maj"`. -/
def CHORD_KEY : String := "Chord"

/-- Modelled from the spec: `PITCH_KEY` from `constants.py` (not under `src/`);
the spec's examples write pitch tokens as `"Pitch_60"`. -/
def PITCH_KEY : String := "Pitch"

/-- The default `specials` argument of `Vocab.__init__`:
`[PAD_TOKEN, UNK_TOKEN, BOS_TOKEN, EOS_TOKEN, MASK_TOKEN]`. -/
def defaultSpecials : List String := [PAD_TOKEN, UNK_TOKEN, BOS_TOKEN, EOS_TOKEN, MASK_TOKEN]

/-- `Tokens.get_instrument_tokens(key)`: one token per General-MIDI program
0..127, value from the external `pretty_midi.program_to_instrument_name` lookup
(embedded as the parameter `progName`), then the `"<key>_drum"` token appended. -/
def get_instrument_tokens (progName : Nat → String) (key : String) : List String :=
  ((List.range 128).map (fun i => key ++ "_" ++ progName i)) ++ [key ++ "_drum"]

/-- The default `qualities` argument of `Tokens.get_chord_tokens`. -/
def defaultQualities : List String :=
  ["maj", "min", "dim", "aug", "dom7", "maj7", "min7", "None"]

/-- The `pitch_classes` list of `Tokens.get_chord_tokens`: the source writes the
twelve names `C, C#, D, D#, E, F, F#, G, G#, A, A#, B` in one literal. -/
def pitch_classes : List String :=
  ["C", "C#", "D", "D#", "E", "F"] ++ ["F#", "G", "G#", "A", "A#", "B"]

/-- `Tokens.get_chord_tokens(key, qualities)`: `"<root>:<quality>"` for roots
outer and qualities inner, then the `"N:N"` sentinel, each prefixed `"<key>_"`. -/
def get_chord_tokens (key : String) (qualities : List String) : List String :=
  let chords :=
    (pitch_classes.flatMap (fun root => qualities.map (fun q => root ++ ":" ++ q))) ++ ["N:N"]
  chords.map (fun chord => key ++ "_" ++ chord)

/-- `Tokens.get_time_signature_tokens(key)`: for each denominator `q` in
`[2, 4, 8, 16]` and each numerator `p` in `range(1, MAX_BAR_LENGTH*q + 1)`,
the token `"<key>_<p>/<q>"`. `MAX_BAR_LENGTH` comes from `constants.py`
(not under `src/`) and is taken as the parameter `maxBarLength`. -/
def get_time_signature_tokens (maxBarLength : Nat) (key : String) : List String :=
  let denominators : List Nat := [2, 4, 8, 16]
  let time_sigs := denominators.flatMap
    (fun q => (List.range' 1 (maxBarLength * q)).map
      (fun p => toString p ++ "/" ++ toString q))
  time_sigs.map (fun time_sig => key ++ "_" ++ time_sig)

/-- `Tokens.get_midi_tokens(...)`: the composite MIDI event vocabulary. The bin
arrays of `constants.py` (not under `src/`) enter only through their lengths
(`numVelocityBins`, `numDurationBins`, `numTempoBins`), as do `MAX_N_BARS`
(`maxNBars`), `MAX_BAR_LENGTH` (`maxBarLength`) and `DEFAULT_POS_PER_QUARTER`
(`posPerQuarter`). -/
def get_midi_tokens (progName : Nat → String)
    (numVelocityBins numDurationBins numTempoBins maxNBars maxBarLength posPerQuarter : Nat)
    (instrument_key time_signature_key pitch_key velocity_key duration_key tempo_key
      bar_key position_key : String) : List String :=
  let instrument_tokens := get_instrument_tokens progName instrument_key
  let pitch_tokens :=
    (List.range 128).map (fun i => pitch_key ++ "_" ++ toString i) ++
    (List.range 128).map (fun i => pitch_key ++ "_drum_" ++ toString i)
  let velocity_tokens := (List.range numVelocityBins).map
    (fun i => velocity_key ++ "_" ++ toString i)
  let duration_tokens := (List.range numDurationBins).map
    (fun i => duration_key ++ "_" ++ toString i)
  let tempo_tokens := (List.range numTempoBins).map
    (fun i => tempo_key ++ "_" ++ toString i)
  let bar_tokens := (List.range maxNBars).map
    (fun i => bar_key ++ "_" ++ toString i)
  let position_tokens := (List.range (maxBarLength * 4 * posPerQuarter)).map
    (fun i => position_key ++ "_" ++ toString i)
  let time_sig_tokens := get_time_signature_tokens maxBarLength time_signature_key
  time_sig_tokens ++ tempo_tokens ++ instrument_tokens ++ pitch_tokens ++
    velocity_tokens ++ duration_tokens ++ bar_tokens ++ position_tokens

/-- The `Vocab` object: `forward_map` (Python dict, embedded as a partial
function), `backward_map` (Python list), `default_token`, `specials`. -/
structure Vocab where
  forward_map : String → Option Nat
  backward_map : List String
  default_token : Nat
  specials : List String

/-- The specials loop of `Vocab.__init__`:
`for i, token in enumerate(self.specials): backward_map.append(token); forward_map[token] = i`.
The enumerate index `i` equals the current `backward_map` length, since both
start at zero and exactly one token is appended per iteration. -/
def specialsLoop (fm : String → Option Nat) (bm : List String) :
    List String → (String → Option Nat) × List String
  | [] => (fm, bm)
  | token :: rest =>
      specialsLoop (fun t => if t = token then some bm.length else fm t) (bm ++ [token]) rest

/-- The counter loop of `Vocab.__init__`:
`for token, count in counter.items(): if token not in forward_map: forward_map[token] = len(backward_map); backward_map.append(token)`. -/
def counterLoop (fm : String → Option Nat) (bm : List String) :
    List (String × Nat) → (String → Option Nat) × List String
  | [] => (fm, bm)
  | (token, _) :: rest =>
      match fm token with
      | some _ => counterLoop fm bm rest
      | none =>
          counterLoop (fun t => if t = token then some bm.length else fm t)
            (bm ++ [token]) rest

/-- `Vocab.__init__(counter, specials, unk_token)`. The Python `Counter` is
embedded as an association list of (token, count) pairs in iteration order.
`default_token` starts at 0 and becomes `forward_map[unk_token]` when
`unk_token in specials`, exactly as in the source (the default is read after
the specials loop and before the counter loop). -/
def Vocab.make (counter : List (String × Nat)) (specials : List String)
    (unk_token : String) : Vocab :=
  let st1 := specialsLoop (fun _ => none) [] specials
  let dflt := if unk_token ∈ specials then (st1.1 unk_token).getD 0 else 0
  let st2 := counterLoop st1.1 st1.2 counter
  { forward_map := st2.1, backward_map := st2.2, default_token := dflt,
    specials := specials }

/-- `Vocab.to_i(token)`: `self.forward_map.get(token, self.default_token)`. -/
def Vocab.to_i (v : Vocab) (token : String) : Nat :=
  (v.forward_map token).getD v.default_token

/-- Python list indexing `l[idx]` for a possibly negative `idx`: a negative
index is offset by the length; an index out of `[0, len)` after that offset
raises `IndexError`, embedded as `none`. -/
def pyListGet (l : List String) (idx : Int) : Option String :=
  let j : Int := if idx < 0 then idx + l.length else idx
  if 0 ≤ j then l[j.toNat]? else none

/-- `Vocab.to_s(idx)`: returns `UNK_TOKEN` when `idx >= len(self.backward_map)`,
otherwise Python-indexes `self.backward_map[idx]` (which on a negative `idx`
counts from the end and raises `IndexError` below `-len`). -/
def Vocab.to_s (v : Vocab) (idx : Int) : Option String :=
  if (v.backward_map.length : Int) ≤ idx then some UNK_TOKEN
  else pyListGet v.backward_map idx

/-- `Vocab.__len__`. -/
def Vocab.size (v : Vocab) : Nat := v.backward_map.length

/-- `Vocab.encode(seq)`: element-wise `to_i`. -/
def Vocab.encode (v : Vocab) (seq : List String) : List Nat := seq.map v.to_i

/-- `Vocab.decode(seq)`: element-wise `to_s` (the tensor branch only converts
the representation and is not modelled). -/
def Vocab.decode (v : Vocab) (seq : List Int) : List (Option String) := seq.map v.to_s

/-- `collections.Counter(seq)`: multiplicities keyed in first-seen order
(Python dicts preserve insertion order). -/
def counterOf (seq : List String) : List (String × Nat) :=
  seq.foldl (fun acc t =>
    if acc.any (fun p => p.1 = t) then
      acc.map (fun p => if p.1 = t then (p.1, p.2 + 1) else p)
    else acc ++ [(t, 1)]) []

/-- Building a vocabulary from a token list the way `RemiVocab.__init__` and
`DescriptionVocab.__init__` do: `Counter(self.tokens)` fed to `Vocab.__init__`
with the default specials and default `unk_token`. -/
def vocabFromTokens (tokens : List String) : Vocab :=
  Vocab.make (counterOf tokens) defaultSpecials UNK_TOKEN

/-- `'\n'.join(tokens)` at the character level. -/
def joinNL : List (List Char) → List Char
  | [] => []
  | [l] => l
  | l :: ls => l ++ '\n' :: joinNL ls

/-- Python `s.split('\n')` at the character level: `"".split('\n') == [""]`,
and every newline separates two (possibly empty) fields. -/
def splitNL : List Char → List (List Char)
  | [] => [[]]
  | c :: cs =>
      if c = '\n' then [] :: splitNL cs
      else
        match splitNL cs with
        | [] => [[c]]
        | h :: t => (c :: h) :: t

/-- The write path of `RemiVocab.__init__`: `f.write('\n'.join(self.tokens))`. -/
def persistTokens (tokens : List String) : String :=
  String.mk (joinNL (tokens.map String.data))

/-- The load path of `RemiVocab.__init__`: `f.read().split('\n')`. -/
def loadTokens (s : String) : List String :=
  (splitNL s.data).map String.mk

/-- The forward and backward maps are mutually inverse: `fm t = some j` exactly
when position `j` of `bm` holds `t`. This is the invariant `Vocab.__init__`
establishes (for duplicate-free specials) and `to_i` / `to_s` rely on. -/
def MapInv (fm : String → Option Nat) (bm : List String) : Prop :=
  ∀ t j, fm t = some j ↔ bm[j]? = some t

/-- The concrete scenario-A vocabulary: default specials over the occurrence
sequence `["Pitch_60", "Pitch_62", "Pitch_60"]`. -/
def scenarioA : Vocab := vocabFromTokens ["Pitch_60", "Pitch_62", "Pitch_60"]

lemma lt_of_getElem?_some {l : List String} {i : Nat} {a : String}
    (h : l[i]? = some a) : i < l.length := by
  by_contra h'
  push_neg at h'
  rw [List.getElem?_eq_none h'] at h
  cases h

lemma mapInv_nil : MapInv (fun _ => none) [] := by
  intro t j
  simp

lemma mapInv_push {fm : String → Option Nat} {bm : List String} {token : String}
    (hInv : MapInv fm bm) (hnew : fm token = none) :
    MapInv (fun t => if t = token then some bm.length else fm t) (bm ++ [token]) := by
  intro t j
  dsimp only
  constructor
  · intro h
    by_cases ht : t = token
    · subst ht
      rw [if_pos rfl] at h
      obtain rfl := Option.some_inj.mp h
      rw [List.getElem?_append]
      simp
    · rw [if_neg ht] at h
      have hbm := (hInv t j).mp h
      rw [List.getElem?_append, if_pos (lt_of_getElem?_some hbm)]
      exact hbm
  · intro h
    rcases Nat.lt_trichotomy j bm.length with hj | hj | hj
    · rw [List.getElem?_append, if_pos hj] at h
      have hfm := (hInv t j).mpr h
      have ht : t ≠ token := fun he => by rw [he, hnew] at hfm; cases hfm
      rw [if_neg ht]
      exact hfm
    · rw [List.getElem?_append, if_neg (by omega), hj, Nat.sub_self] at h
      obtain rfl : token = t := by simpa using h
      rw [if_pos rfl, hj]
    · exfalso
      rw [List.getElem?_append, if_neg (by omega)] at h
      have : j - bm.length ≥ 1 := by omega
      rw [List.getElem?_eq_none (by simpa using this)] at h
      cases h

lemma specialsLoop_snd : ∀ (rest : List String) (fm : String → Option Nat) (bm : List String),
    (specialsLoop fm bm rest).2 = bm ++ rest
  | [], _, bm => by simp [specialsLoop]
  | token :: rest, fm, bm => by
      simp only [specialsLoop]
      rw [specialsLoop_snd rest]
      simp

lemma specialsLoop_inv : ∀ (rest : List String) (fm : String → Option Nat) (bm : List String),
    MapInv fm bm → (∀ t ∈ rest, fm t = none) → rest.Nodup →
    MapInv (specialsLoop fm bm rest).1 (specialsLoop fm bm rest).2
  | [], _, _, hInv, _, _ => hInv
  | token :: rest, fm, bm, hInv, hnone, hnd => by
      simp only [specialsLoop]
      apply specialsLoop_inv rest
      · exact mapInv_push hInv (hnone token (List.mem_cons_self token rest))
      · intro t ht
        have hne : t ≠ token := by
          rintro rfl
          exact (List.nodup_cons.mp hnd).1 ht
        simpa [hne] using hnone t (List.mem_cons_of_mem _ ht)
      · exact (List.nodup_cons.mp hnd).2

lemma counterLoop_inv : ∀ (counter : List (String × Nat)) (fm : String → Option Nat)
    (bm : List String), MapInv fm bm →
    MapInv (counterLoop fm bm counter).1 (counterLoop fm bm counter).2
  | [], _, _, hInv => hInv
  | (token, _) :: rest, fm, bm, hInv => by
      rcases hfm : fm token with _ | k
      · simp only [counterLoop, hfm]
        exact counterLoop_inv rest _ _ (mapInv_push hInv hfm)
      · simp only [counterLoop, hfm]
        exact counterLoop_inv rest fm bm hInv

lemma counterLoop_snd_prefix : ∀ (counter : List (String × Nat)) (fm : String → Option Nat)
    (bm : List String), ∃ ext, (counterLoop fm bm counter).2 = bm ++ ext
  | [], _, bm => ⟨[], by simp [counterLoop]⟩
  | (token, _) :: rest, fm, bm => by
      rcases hfm : fm token with _ | k
      · simp only [counterLoop, hfm]
        obtain ⟨ext, he⟩ := counterLoop_snd_prefix rest
          (fun t => if t = token then some bm.length else fm t) (bm ++ [token])
        exact ⟨token :: ext, by rw [he]; simp⟩
      · simp only [counterLoop, hfm]
        exact counterLoop_snd_prefix rest fm bm

lemma make_forward_map (counter : List (String × Nat)) (specials : List String) (unk : String) :
    (Vocab.make counter specials unk).forward_map =
      (counterLoop (specialsLoop (fun _ => none) [] specials).1
        (specialsLoop (fun _ => none) [] specials).2 counter).1 := rfl

lemma make_backward_map (counter : List (String × Nat)) (specials : List String) (unk : String) :
    (Vocab.make counter specials unk).backward_map =
      (counterLoop (specialsLoop (fun _ => none) [] specials).1
        (specialsLoop (fun _ => none) [] specials).2 counter).2 := rfl

lemma make_default_token (counter : List (String × Nat)) (specials : List String) (unk : String) :
    (Vocab.make counter specials unk).default_token =
      if unk ∈ specials then ((specialsLoop (fun _ => none) [] specials).1 unk).getD 0
      else 0 := rfl

lemma make_inv (counter : List (String × Nat)) (specials : List String) (unk : String)
    (hnd : specials.Nodup) :
    MapInv (Vocab.make counter specials unk).forward_map
      (Vocab.make counter specials unk).backward_map := by
  rw [make_forward_map, make_backward_map]
  exact counterLoop_inv counter _ _
    (specialsLoop_inv specials _ [] mapInv_nil (fun t _ => rfl) hnd)

lemma make_backward_prefix (counter : List (String × Nat)) (specials : List String)
    (unk : String) :
    ∃ ext, (Vocab.make counter specials unk).backward_map = specials ++ ext := by
  rw [make_backward_map, specialsLoop_snd]
  simp only [List.nil_append]
  exact counterLoop_snd_prefix counter (specialsLoop (fun _ => none) [] specials).1 specials

lemma make_nodup (counter : List (String × Nat)) (specials : List String) (unk : String)
    (hnd : specials.Nodup) :
    (Vocab.make counter specials unk).backward_map.Nodup := by
  have hinv := make_inv counter specials unk hnd
  rw [List.nodup_iff_injective_get]
  intro i j hij
  have hi := (hinv ((Vocab.make counter specials unk).backward_map.get i) i.1).mpr
    (by simp [List.getElem?_eq_getElem i.2, List.get_eq_getElem])
  have hj := (hinv ((Vocab.make counter specials unk).backward_map.get j) j.1).mpr
    (by simp [List.getElem?_eq_getElem j.2, List.get_eq_getElem])
  rw [← hij, hi] at hj
  exact Fin.ext (Option.some_inj.mp hj)

lemma specialsLoop_fm_indexOf (specials : List String) (u : String)
    (hnd : specials.Nodup) (hu : u ∈ specials) :
    (specialsLoop (fun _ => none) [] specials).1 u = some (specials.indexOf u) := by
  have hinv := specialsLoop_inv specials (fun _ => none) [] mapInv_nil (fun t _ => rfl) hnd
  rw [specialsLoop_snd] at hinv
  simp only [List.nil_append] at hinv
  exact (hinv u (specials.indexOf u)).mpr (List.getElem?_indexOf hu)

lemma pyListGet_nonneg (l : List String) (idx : Int) (h0 : 0 ≤ idx) :
    pyListGet l idx = l[idx.toNat]? := by
  simp only [pyListGet, if_neg (by omega : ¬ idx < 0), if_pos h0]

lemma pyListGet_neg (l : List String) (idx : Int) (hneg : idx < 0)
    (hge : -(l.length : Int) ≤ idx) :
    pyListGet l idx = l[(idx + l.length).toNat]? := by
  simp only [pyListGet, if_pos hneg, if_pos (by omega : (0:Int) ≤ idx + l.length)]

lemma pyListGet_low (l : List String) (idx : Int) (h : idx < -(l.length : Int)) :
    pyListGet l idx = none := by
  simp only [pyListGet, if_pos (by omega : idx < 0),
    if_neg (by omega : ¬ (0:Int) ≤ idx + l.length)]

lemma to_s_of_ge (v : Vocab) (idx : Int) (h : (v.size : Int) ≤ idx) :
    v.to_s idx = some UNK_TOKEN := by
  simp only [Vocab.size] at h
  simp only [Vocab.to_s, if_pos h]

lemma to_s_of_lt_size (v : Vocab) (idx : Int) (h : idx < (v.size : Int)) :
    v.to_s idx = pyListGet v.backward_map idx := by
  simp only [Vocab.size] at h
  simp only [Vocab.to_s, if_neg (by omega : ¬ ((v.backward_map.length : Int) ≤ idx))]

lemma to_s_of_lt (v : Vocab) (i : Nat) (hi : i < v.size) :
    v.to_s (i : Int) = v.backward_map[i]? := by
  rw [to_s_of_lt_size v i (by exact_mod_cast hi),
    pyListGet_nonneg v.backward_map i (by omega)]
  simp

/-- C2: for every constructed `Vocab` and every index `i` with
`0 ≤ i < Size()`, `ToToken(i)` is defined and `ToIndex(ToToken(i)) = i`
(the forward and backward mappings are exact inverses on the valid index
range). Stated for duplicate-free specials, which is how the spec defines
the special-token list. -/
theorem c2_round_trip (counter : List (String × Nat)) (specials : List String) (unk : String)
    (hnd : specials.Nodup) (i : Nat) (hi : i < (Vocab.make counter specials unk).size) :
    ∃ t, (Vocab.make counter specials unk).to_s (i : Int) = some t ∧
      (Vocab.make counter specials unk).to_i t = i := by
  have hinv := make_inv counter specials unk hnd
  obtain ⟨b, hget⟩ : ∃ b, (Vocab.make counter specials unk).backward_map[i]? = some b :=
    ⟨_, List.getElem?_eq_getElem hi⟩
  refine ⟨b, by rw [to_s_of_lt _ i hi, hget], ?_⟩
  have hfm := (hinv _ i).mpr hget
  simp [Vocab.to_i, hfm]

/-- C2 witness: the round trip at index 5 of the scenario-A vocabulary. -/
theorem c2_round_trip_witness :
    ∃ t, scenarioA.to_s (5 : Int) = some t ∧ scenarioA.to_i t = 5 :=
  c2_round_trip (counterOf ["Pitch_60", "Pitch_62", "Pitch_60"]) defaultSpecials UNK_TOKEN
    (by decide) 5 (by decide)

/-- C5: for every constructed `Vocab` (duplicate-free specials, any counter),
the specials occupy indices `0..len(specials)-1` in declared order, and the
indices in the range of the forward map are exactly `0..Size()-1`, dense with
no gaps. -/
theorem c5_specials_and_dense (counter : List (String × Nat)) (specials : List String)
    (unk : String) (hnd : specials.Nodup) :
    (∀ i, i < specials.length →
      (Vocab.make counter specials unk).backward_map[i]? = specials[i]?) ∧
    (∀ j, (∃ t, (Vocab.make counter specials unk).forward_map t = some j) ↔
      j < (Vocab.make counter specials unk).size) := by
  constructor
  · intro i hi
    obtain ⟨ext, he⟩ := make_backward_prefix counter specials unk
    rw [he, List.getElem?_append, if_pos hi]
  · intro j
    have hinv := make_inv counter specials unk hnd
    constructor
    · rintro ⟨t, ht⟩
      exact lt_of_getElem?_some ((hinv t j).mp ht)
    · intro hj
      exact ⟨_, (hinv _ j).mpr (List.getElem?_eq_getElem hj)⟩

/-- C5 witness: the specials-prefix and density facts for a concrete vocabulary. -/
theorem c5_specials_and_dense_witness :
    (∀ i, i < defaultSpecials.length →
      (Vocab.make [("Pitch_60", 1)] defaultSpecials UNK_TOKEN).backward_map[i]? =
        defaultSpecials[i]?) ∧
    (∀ j, (∃ t, (Vocab.make [("Pitch_60", 1)] defaultSpecials UNK_TOKEN).forward_map t = some j) ↔
      j < (Vocab.make [("Pitch_60", 1)] defaultSpecials UNK_TOKEN).size) :=
  c5_specials_and_dense [("Pitch_60", 1)] defaultSpecials UNK_TOKEN (by decide)

/-- C4: for every constructed `Vocab` (duplicate-free specials) and every token
absent from the vocabulary, `ToIndex` returns the default index and never
fails; the default index is the `unk_token`'s index among the specials when it
is one of them, and 0 otherwise. -/
theorem c4_unknown_token_default (counter : List (String × Nat)) (specials : List String)
    (unk : String) (t : String) (hnd : specials.Nodup)
    (habs : t ∉ (Vocab.make counter specials unk).backward_map) :
    (Vocab.make counter specials unk).to_i t = (Vocab.make counter specials unk).default_token ∧
    (Vocab.make counter specials unk).default_token =
      (if unk ∈ specials then specials.indexOf unk else 0) := by
  constructor
  · have hfm : (Vocab.make counter specials unk).forward_map t = none := by
      cases hfm : (Vocab.make counter specials unk).forward_map t with
      | none => rfl
      | some j =>
          exact absurd (List.getElem?_mem ((make_inv counter specials unk hnd t j).mp hfm))
            habs
    simp [Vocab.to_i, hfm]
  · rw [make_default_token]
    by_cases hu : unk ∈ specials
    · rw [if_pos hu, if_pos hu, specialsLoop_fm_indexOf specials unk hnd hu]
      rfl
    · rw [if_neg hu, if_neg hu]

/-- C4 witness: `"Pitch_61"` is absent from the scenario-A vocabulary and maps
to the default index, which is UNK's index 1. -/
theorem c4_unknown_token_default_witness :
    scenarioA.to_i "Pitch_61" = scenarioA.default_token ∧
    scenarioA.default_token =
      (if UNK_TOKEN ∈ defaultSpecials then defaultSpecials.indexOf UNK_TOKEN else 0) :=
  c4_unknown_token_default (counterOf ["Pitch_60", "Pitch_62", "Pitch_60"]) defaultSpecials
    UNK_TOKEN "Pitch_61" (by decide) (by decide)

/-- C7: scenario A. With the default five specials and the occurrence sequence
`["Pitch_60", "Pitch_62", "Pitch_60"]`, `Size() = 7`,
`ToIndex("Pitch_60") = 5`, `ToIndex("Pitch_62") = 6`, `ToIndex("Pitch_61") = 1`
(UNK's index); and in general duplicate tokens in the occurrence sequence are
collapsed to a single index (the backward map stays duplicate-free), never an
error. -/
theorem c7_scenario_a :
    scenarioA.size = 7 ∧ scenarioA.to_i "Pitch_60" = 5 ∧ scenarioA.to_i "Pitch_62" = 6 ∧
    scenarioA.to_i "Pitch_61" = 1 ∧
    ∀ seq : List String, (vocabFromTokens seq).backward_map.Nodup := by
  refine ⟨by decide, by decide, by decide, by decide, fun seq => ?_⟩
  exact make_nodup (counterOf seq) defaultSpecials UNK_TOKEN (by decide)

/-- C1 counterexample: in the scenario-A vocabulary `ToToken(-1)` returns the
last token `"Pitch_62"`, not the UNK token literal, refuting the claim that
every out-of-range index (including every negative index) yields UNK. -/
theorem c1_counterexample : ¬ (scenarioA.to_s (-1) = some UNK_TOKEN) := by decide

/-- C1 amended: for every constructed `Vocab`, `ToToken(idx)` returns the UNK
token literal for every oversized index `idx ≥ Size()`; a negative index with
`-Size() ≤ idx < 0` returns (without raising) the token stored at position
`Size()+idx`, Python from-the-end indexing; and for `idx < -Size()` it raises
`IndexError` rather than returning UNK. -/
theorem c1_to_s_amended (counter : List (String × Nat)) (specials : List String)
    (unk : String) (idx : Int) :
    (((Vocab.make counter specials unk).size : Int) ≤ idx →
      (Vocab.make counter specials unk).to_s idx = some UNK_TOKEN) ∧
    (-((Vocab.make counter specials unk).size : Int) ≤ idx → idx < 0 →
      ∃ t, (Vocab.make counter specials unk).backward_map[
          (((Vocab.make counter specials unk).size : Int) + idx).toNat]? = some t ∧
        (Vocab.make counter specials unk).to_s idx = some t) ∧
    (idx < -((Vocab.make counter specials unk).size : Int) →
      (Vocab.make counter specials unk).to_s idx = none) := by
  refine ⟨fun h => to_s_of_ge _ idx h, fun h hneg => ?_, fun h => ?_⟩
  · rw [to_s_of_lt_size _ idx (by simp only [Vocab.size] at h ⊢; omega),
      pyListGet_neg _ idx hneg (by simpa [Vocab.size] using h)]
    have hlt : (idx + ((Vocab.make counter specials unk).backward_map.length : Int)).toNat <
        (Vocab.make counter specials unk).backward_map.length := by
      simp only [Vocab.size] at h
      omega
    refine ⟨_, ?_, List.getElem?_eq_getElem hlt⟩
    have harg : (((Vocab.make counter specials unk).size : Int) + idx).toNat =
        (idx + ((Vocab.make counter specials unk).backward_map.length : Int)).toNat := by
      simp only [Vocab.size]
      omega
    rw [harg]
    exact List.getElem?_eq_getElem hlt
  · rw [to_s_of_lt_size _ idx (by simp only [Vocab.size] at h ⊢; omega)]
    exact pyListGet_low _ idx (by simpa [Vocab.size] using h)

/-- C1 amended witness: on the scenario-A vocabulary (size 7), `ToToken(7)` is
UNK, `ToToken(-1)` returns the token at position `7 + (-1) = 6`, and
`ToToken(-8)` raises. -/
theorem c1_to_s_amended_witness :
    scenarioA.to_s 7 = some UNK_TOKEN ∧
    (∃ t, scenarioA.backward_map[((scenarioA.size : Int) + (-1)).toNat]? = some t ∧
      scenarioA.to_s (-1) = some t) ∧
    scenarioA.to_s (-8) = none :=
  ⟨(c1_to_s_amended (counterOf ["Pitch_60", "Pitch_62", "Pitch_60"]) defaultSpecials UNK_TOKEN
      7).1 (by decide),
   (c1_to_s_amended (counterOf ["Pitch_60", "Pitch_62", "Pitch_60"]) defaultSpecials UNK_TOKEN
      (-1)).2.1 (by decide) (by decide),
   (c1_to_s_amended (counterOf ["Pitch_60", "Pitch_62", "Pitch_60"]) defaultSpecials UNK_TOKEN
      (-8)).2.2 (by decide)⟩

/-- C10: for every constructed `Vocab` and every negative `idx` with
`-Size() ≤ idx < 0`, `ToToken(idx)` returns the token stored at position
`Size()+idx` (Python from-the-end indexing), and for `idx < -Size()` it raises
`IndexError` — `ToToken` is not total over negative integers. -/
theorem c10_negative_index (counter : List (String × Nat)) (specials : List String)
    (unk : String) (idx : Int) (hneg : idx < 0) :
    (-((Vocab.make counter specials unk).size : Int) ≤ idx →
      ∃ t, (Vocab.make counter specials unk).backward_map[
          (((Vocab.make counter specials unk).size : Int) + idx).toNat]? = some t ∧
        (Vocab.make counter specials unk).to_s idx = some t) ∧
    (idx < -((Vocab.make counter specials unk).size : Int) →
      (Vocab.make counter specials unk).to_s idx = none) := by
  constructor
  · intro h
    rw [to_s_of_lt_size _ idx (by simp only [Vocab.size] at h ⊢; omega),
      pyListGet_neg _ idx hneg (by simpa [Vocab.size] using h)]
    have hlt : (idx + ((Vocab.make counter specials unk).backward_map.length : Int)).toNat <
        (Vocab.make counter specials unk).backward_map.length := by
      simp only [Vocab.size] at h
      omega
    refine ⟨_, ?_, List.getElem?_eq_getElem hlt⟩
    have harg : (((Vocab.make counter specials unk).size : Int) + idx).toNat =
        (idx + ((Vocab.make counter specials unk).backward_map.length : Int)).toNat := by
      simp only [Vocab.size]
      omega
    rw [harg]
    exact List.getElem?_eq_getElem hlt
  · intro h
    rw [to_s_of_lt_size _ idx (by simp only [Vocab.size] at h ⊢; omega)]
    exact pyListGet_low _ idx (by simpa [Vocab.size] using h)

/-- C10 witness: `ToToken(-1)` on the scenario-A vocabulary returns the token
at position `7 + (-1) = 6`. -/
theorem c10_negative_index_witness :
    ∃ t, scenarioA.backward_map[((scenarioA.size : Int) + (-1)).toNat]? = some t ∧
      scenarioA.to_s (-1) = some t :=
  (c10_negative_index (counterOf ["Pitch_60", "Pitch_62", "Pitch_60"]) defaultSpecials UNK_TOKEN
    (-1) (by decide)).1 (by decide)

/-- C3 counterexample: with `MaxBarLength = 1` the time-signature enumeration
produces 30 tokens (numerators run from 1 to `1 × denominator` for each
denominator), not the 4 tokens the claim expects. -/
theorem c3_counterexample : (get_time_signature_tokens 1 TIME_SIGNATURE_KEY).length ≠ 4 := by
  decide

/-- C3 amended: with `MaxBarLength = 1` and denominators `{2, 4, 8, 16}`, the
time-signature enumeration produces exactly `2+4+8+16 = 30` tokens, with
denominators outer and numerators `1..denominator` inner; the four tokens
`"TimeSig_1/2"`, `"TimeSig_1/4"`, `"TimeSig_1/8"`, `"TimeSig_1/16"` appear in
that relative order at positions 0, 2, 6 and 14. -/
theorem c3_time_signature_amended :
    get_time_signature_tokens 1 TIME_SIGNATURE_KEY =
      ["TimeSig_1/2", "TimeSig_2/2",
       "TimeSig_1/4", "TimeSig_2/4", "TimeSig_3/4", "TimeSig_4/4",
       "TimeSig_1/8", "TimeSig_2/8", "TimeSig_3/8", "TimeSig_4/8",
       "TimeSig_5/8", "TimeSig_6/8", "TimeSig_7/8", "TimeSig_8/8",
       "TimeSig_1/16", "TimeSig_2/16", "TimeSig_3/16", "TimeSig_4/16",
       "TimeSig_5/16", "TimeSig_6/16", "TimeSig_7/16", "TimeSig_8/16",
       "TimeSig_9/16", "TimeSig_10/16", "TimeSig_11/16", "TimeSig_12/16",
       "TimeSig_13/16", "TimeSig_14/16", "TimeSig_15/16", "TimeSig_16/16"] := by
  decide

/-- C6: the chord enumeration with the default 8 qualities produces 97 tokens:
`"Chord_<root>:<quality>"` for the 12 pitch classes outer and the 8 qualities
inner, followed by the sentinel; the first token is `"Chord_C:maj"` and the
last is `"Chord_N:N"`. -/
theorem c6_chord_tokens :
    (get_chord_tokens CHORD_KEY defaultQualities).length = 97 ∧
    (get_chord_tokens CHORD_KEY defaultQualities).head? = some "Chord_C:maj" ∧
    (get_chord_tokens CHORD_KEY defaultQualities).getLast? = some "Chord_N:N" ∧
    ∀ r, r < 12 → ∀ q, q < 8 →
      (get_chord_tokens CHORD_KEY defaultQualities)[8 * r + q]? =
        some (CHORD_KEY ++ "_" ++ pitch_classes.getD r "" ++ ":" ++
          defaultQualities.getD q "") := by
  refine ⟨by decide, by decide, by decide, ?_⟩
  decide

/-- C6 witness: chord token number `8·3 + 2` is `"Chord_D#:dim"`. -/
theorem c6_chord_tokens_witness :
    (get_chord_tokens CHORD_KEY defaultQualities)[8 * 3 + 2]? =
      some (CHORD_KEY ++ "_" ++ pitch_classes.getD 3 "" ++ ":" ++
        defaultQualities.getD 2 "") :=
  c6_chord_tokens.2.2.2 3 (by decide) 2 (by decide)

lemma getElem?_append_at (l1 l2 : List String) (k : Nat) (hk : k < l1.length) :
    (l1 ++ l2)[k]? = l1[k]? := by
  rw [List.getElem?_append, if_pos hk]

lemma getElem?_append_skip (l1 l2 : List String) (n k : Nat) (hn : l1.length = n) :
    (l1 ++ l2)[n + k]? = l2[k]? := by
  subst hn
  rw [List.getElem?_append, if_neg (by omega)]
  congr 1
  omega

lemma getElem?_append_len (l1 l2 : List String) (n : Nat) (hn : l1.length = n) :
    (l1 ++ l2)[n]? = l2[0]? := by
  subst hn
  rw [List.getElem?_append, if_neg (by omega)]
  congr 1
  omega

lemma getElem?_range_map (f : Nat → String) (n k : Nat) (h : k < n) :
    ((List.range n).map f)[k]? = some (f k) := by
  rw [List.getElem?_map, List.getElem?_range h]
  rfl

/-- C8: the composite MIDI event vocabulary is the concatenation, in this
order, of time-signature tokens, tempo-bin tokens, instrument tokens
(programs 0..127 then the drum pseudo-instrument, 129 in all), pitch tokens
(128 ordinary then 128 drum-marked), velocity-bin tokens, duration-bin tokens,
bar tokens (`maxNBars` of them) and intra-bar position tokens
(`maxBarLength × 4 × posPerQuarter` of them), characterised here by the total
length and by the token found at each segment's offsets. -/
theorem c8_composite (progName : Nat → String) (nV nD nT nBars L P : Nat)
    (ik tsk pk vk dk tk bk posk : String) (i : Nat) (hi : i < 128) :
    (get_midi_tokens progName nV nD nT nBars L P ik tsk pk vk dk tk bk posk).length =
      (get_time_signature_tokens L tsk).length + nT + 129 + 256 + nV + nD + nBars +
        L * 4 * P ∧
    (i < nT → (get_midi_tokens progName nV nD nT nBars L P ik tsk pk vk dk tk bk posk)[
      (get_time_signature_tokens L tsk).length + i]? = some (tk ++ "_" ++ toString i)) ∧
    (get_midi_tokens progName nV nD nT nBars L P ik tsk pk vk dk tk bk posk)[
      (get_time_signature_tokens L tsk).length + nT + i]? =
        some (ik ++ "_" ++ progName i) ∧
    (get_midi_tokens progName nV nD nT nBars L P ik tsk pk vk dk tk bk posk)[
      (get_time_signature_tokens L tsk).length + nT + 128]? = some (ik ++ "_drum") ∧
    (get_midi_tokens progName nV nD nT nBars L P ik tsk pk vk dk tk bk posk)[
      (get_time_signature_tokens L tsk).length + nT + 129 + i]? =
        some (pk ++ "_" ++ toString i) ∧
    (get_midi_tokens progName nV nD nT nBars L P ik tsk pk vk dk tk bk posk)[
      (get_time_signature_tokens L tsk).length + nT + 129 + 128 + i]? =
        some (pk ++ "_drum_" ++ toString i) ∧
    (i < nV → (get_midi_tokens progName nV nD nT nBars L P ik tsk pk vk dk tk bk posk)[
      (get_time_signature_tokens L tsk).length + nT + 129 + 256 + i]? =
        some (vk ++ "_" ++ toString i)) ∧
    (i < nD → (get_midi_tokens progName nV nD nT nBars L P ik tsk pk vk dk tk bk posk)[
      (get_time_signature_tokens L tsk).length + nT + 129 + 256 + nV + i]? =
        some (dk ++ "_" ++ toString i)) ∧
    (i < nBars → (get_midi_tokens progName nV nD nT nBars L P ik tsk pk vk dk tk bk posk)[
      (get_time_signature_tokens L tsk).length + nT + 129 + 256 + nV + nD + i]? =
        some (bk ++ "_" ++ toString i)) ∧
    (i < L * 4 * P →
      (get_midi_tokens progName nV nD nT nBars L P ik tsk pk vk dk tk bk posk)[
        (get_time_signature_tokens L tsk).length + nT + 129 + 256 + nV + nD + nBars + i]? =
          some (posk ++ "_" ++ toString i)) := by
  have hm : get_midi_tokens progName nV nD nT nBars L P ik tsk pk vk dk tk bk posk =
      get_time_signature_tokens L tsk ++
        ((List.range nT).map (fun n => tk ++ "_" ++ toString n) ++
          (get_instrument_tokens progName ik ++
            ((List.range 128).map (fun n => pk ++ "_" ++ toString n) ++
              ((List.range 128).map (fun n => pk ++ "_drum_" ++ toString n) ++
                ((List.range nV).map (fun n => vk ++ "_" ++ toString n) ++
                  ((List.range nD).map (fun n => dk ++ "_" ++ toString n) ++
                    ((List.range nBars).map (fun n => bk ++ "_" ++ toString n) ++
                      (List.range (L * 4 * P)).map
                        (fun n => posk ++ "_" ++ toString n)))))))) := by
    simp only [get_midi_tokens, List.append_assoc]
  have hlt : (get_instrument_tokens progName ik).length = 129 := by
    simp [get_instrument_tokens]
  refine ⟨?_, ?_, ?_, ?_, ?_, ?_, ?_, ?_, ?_, ?_⟩
  · rw [hm]
    simp [get_instrument_tokens]
    omega
  · intro h
    rw [hm, getElem?_append_skip _ _ _ _ rfl, getElem?_append_at _ _ i (by simpa using h),
      getElem?_range_map _ nT i h]
  · rw [hm, show (get_time_signature_tokens L tsk).length + nT + i =
        (get_time_signature_tokens L tsk).length + (nT + i) from by omega,
      getElem?_append_skip _ _ _ _ rfl, getElem?_append_skip _ _ _ _ (by simp),
      get_instrument_tokens, List.append_assoc,
      getElem?_append_at _ _ i (by simpa using hi), getElem?_range_map _ 128 i hi]
  · rw [hm, show (get_time_signature_tokens L tsk).length + nT + 128 =
        (get_time_signature_tokens L tsk).length + (nT + 128) from by omega,
      getElem?_append_skip _ _ _ _ rfl, getElem?_append_skip _ _ _ _ (by simp),
      get_instrument_tokens, List.append_assoc, getElem?_append_len _ _ 128 (by simp),
      getElem?_append_at _ _ 0 (by simp)]
    rfl
  · rw [hm, show (get_time_signature_tokens L tsk).length + nT + 129 + i =
        (get_time_signature_tokens L tsk).length + (nT + (129 + i)) from by omega,
      getElem?_append_skip _ _ _ _ rfl, getElem?_append_skip _ _ _ _ (by simp),
      getElem?_append_skip _ _ _ _ hlt,
      getElem?_append_at _ _ i (by simpa using hi), getElem?_range_map _ 128 i hi]
  · rw [hm, show (get_time_signature_tokens L tsk).length + nT + 129 + 128 + i =
        (get_time_signature_tokens L tsk).length + (nT + (129 + (128 + i))) from by omega,
      getElem?_append_skip _ _ _ _ rfl, getElem?_append_skip _ _ _ _ (by simp),
      getElem?_append_skip _ _ _ _ hlt, getElem?_append_skip _ _ _ _ (by simp),
      getElem?_append_at _ _ i (by simpa using hi), getElem?_range_map _ 128 i hi]
  · intro h
    rw [hm, show (get_time_signature_tokens L tsk).length + nT + 129 + 256 + i =
        (get_time_signature_tokens L tsk).length + (nT + (129 + (128 + (128 + i))))
        from by omega,
      getElem?_append_skip _ _ _ _ rfl, getElem?_append_skip _ _ _ _ (by simp),
      getElem?_append_skip _ _ _ _ hlt, getElem?_append_skip _ _ _ _ (by simp),
      getElem?_append_skip _ _ _ _ (by simp),
      getElem?_append_at _ _ i (by simpa using h), getElem?_range_map _ nV i h]
  · intro h
    rw [hm, show (get_time_signature_tokens L tsk).length + nT + 129 + 256 + nV + i =
        (get_time_signature_tokens L tsk).length +
          (nT + (129 + (128 + (128 + (nV + i))))) from by omega,
      getElem?_append_skip _ _ _ _ rfl, getElem?_append_skip _ _ _ _ (by simp),
      getElem?_append_skip _ _ _ _ hlt, getElem?_append_skip _ _ _ _ (by simp),
      getElem?_append_skip _ _ _ _ (by simp), getElem?_append_skip _ _ _ _ (by simp),
      getElem?_append_at _ _ i (by simpa using h), getElem?_range_map _ nD i h]
  · intro h
    rw [hm, show (get_time_signature_tokens L tsk).length + nT + 129 + 256 + nV + nD + i =
        (get_time_signature_tokens L tsk).length +
          (nT + (129 + (128 + (128 + (nV + (nD + i)))))) from by omega,
      getElem?_append_skip _ _ _ _ rfl, getElem?_append_skip _ _ _ _ (by simp),
      getElem?_append_skip _ _ _ _ hlt, getElem?_append_skip _ _ _ _ (by simp),
      getElem?_append_skip _ _ _ _ (by simp), getElem?_append_skip _ _ _ _ (by simp),
      getElem?_append_skip _ _ _ _ (by simp),
      getElem?_append_at _ _ i (by simpa using h), getElem?_range_map _ nBars i h]
  · intro h
    rw [hm, show (get_time_signature_tokens L tsk).length + nT + 129 + 256 + nV + nD +
          nBars + i =
        (get_time_signature_tokens L tsk).length +
          (nT + (129 + (128 + (128 + (nV + (nD + (nBars + i))))))) from by omega,
      getElem?_append_skip _ _ _ _ rfl, getElem?_append_skip _ _ _ _ (by simp),
      getElem?_append_skip _ _ _ _ hlt, getElem?_append_skip _ _ _ _ (by simp),
      getElem?_append_skip _ _ _ _ (by simp), getElem?_append_skip _ _ _ _ (by simp),
      getElem?_append_skip _ _ _ _ (by simp), getElem?_append_skip _ _ _ _ (by simp),
      getElem?_range_map _ (L * 4 * P) i h]

/-- C8 witness: the length decomposition at a concrete configuration. -/
theorem c8_composite_witness :
    (get_midi_tokens (fun n => toString n) 1 1 1 1 1 1 "Instrument" "TimeSig" "Pitch"
      "Velocity" "Duration" "Tempo" "Bar" "Position").length =
      (get_time_signature_tokens 1 "TimeSig").length + 1 + 129 + 256 + 1 + 1 + 1 +
        1 * 4 * 1 :=
  (c8_composite (fun n => toString n) 1 1 1 1 1 1 "Instrument" "TimeSig" "Pitch"
    "Velocity" "Duration" "Tempo" "Bar" "Position" 0 (by decide)).1

lemma splitNL_ne_nil : ∀ cs : List Char, splitNL cs ≠ []
  | [] => by simp [splitNL]
  | c :: cs => by
      by_cases hc : c = '\n'
      · simp [splitNL, hc]
      · simp only [splitNL, if_neg hc]
        cases h : splitNL cs with
        | nil => simp
        | cons hd tl => simp

lemma splitNL_no_nl : ∀ l : List Char, '\n' ∉ l → splitNL l = [l]
  | [] => fun _ => rfl
  | c :: l => fun h => by
      have hc : c ≠ '\n' := fun he => h (he ▸ List.mem_cons_self c l)
      have hl : '\n' ∉ l := fun hm => h (List.mem_cons_of_mem c hm)
      simp only [splitNL, if_neg hc, splitNL_no_nl l hl]

lemma splitNL_append : ∀ (l cs : List Char), '\n' ∉ l →
    ∀ hd tl, splitNL cs = hd :: tl → splitNL (l ++ cs) = (l ++ hd) :: tl
  | [], cs, _, hd, tl, hsplit => by simpa using hsplit
  | c :: l, cs, h, hd, tl, hsplit => by
      have hc : c ≠ '\n' := fun he => h (he ▸ List.mem_cons_self c l)
      have hl : '\n' ∉ l := fun hm => h (List.mem_cons_of_mem c hm)
      have ih := splitNL_append l cs hl hd tl hsplit
      simp only [List.cons_append, splitNL, if_neg hc, List.append_eq]
      rw [ih]

lemma joinNL_roundtrip : ∀ ls : List (List Char), ls ≠ [] → (∀ l ∈ ls, '\n' ∉ l) →
    splitNL (joinNL ls) = ls
  | [], h, _ => absurd rfl h
  | [l], _, hnl => by
      simp only [joinNL]
      exact splitNL_no_nl l (hnl l (List.mem_singleton_self l))
  | l :: l2 :: rest, _, hnl => by
      have ih := joinNL_roundtrip (l2 :: rest) (by simp)
        (fun x hx => hnl x (List.mem_cons_of_mem l hx))
      have hjoin : joinNL (l :: l2 :: rest) = l ++ '\n' :: joinNL (l2 :: rest) := rfl
      have hsplit : splitNL ('\n' :: joinNL (l2 :: rest)) = [] :: l2 :: rest := by
        simp [splitNL, ih]
      rw [hjoin,
        splitNL_append l ('\n' :: joinNL (l2 :: rest)) (hnl l (List.mem_cons_self l _))
          [] (l2 :: rest) hsplit,
        List.append_nil]

lemma loadTokens_persistTokens (ts : List String) (hne : ts ≠ [])
    (hnl : ∀ t ∈ ts, '\n' ∉ t.data) : loadTokens (persistTokens ts) = ts := by
  unfold loadTokens persistTokens
  rw [show (String.mk (joinNL (ts.map String.data))).data = joinNL (ts.map String.data)
      from rfl,
    joinNL_roundtrip (ts.map String.data) (by simpa using hne)
      (by
        intro l hl
        obtain ⟨t, ht, rfl⟩ := List.mem_map.mp hl
        exact hnl t ht),
    List.map_map]
  have hid : String.mk ∘ String.data = id := funext fun t => by cases t; rfl
  rw [hid, List.map_id]

/-- C9: persisting a vocabulary's token list as a newline-joined string and
reloading it by splitting on newlines yields a fresh vocabulary whose
`ToIndex` agrees with the original on every token of the original token space,
provided the tokens contain no newline characters. -/
theorem c9_persistence_roundtrip (ts : List String) (hnl : ∀ t ∈ ts, '\n' ∉ t.data)
    (t : String) (ht : t ∈ ts) :
    (vocabFromTokens (loadTokens (persistTokens ts))).to_i t =
      (vocabFromTokens ts).to_i t := by
  cases ts with
  | nil => cases ht
  | cons a l => rw [loadTokens_persistTokens (a :: l) (by simp) hnl]

/-- C9 witness: the persistence round trip on the one-token list
`["Pitch_60"]` evaluated at `"Pitch_60"`. -/
theorem c9_persistence_roundtrip_witness :
    (vocabFromTokens (loadTokens (persistTokens ["Pitch_60"]))).to_i "Pitch_60" =
      (vocabFromTokens ["Pitch_60"]).to_i "Pitch_60" :=
  c9_persistence_roundtrip ["Pitch_60"] (by decide) "Pitch_60" (by decide)

end Figaro
